import Mathlib

/-!
Verification of the OKX-Rate-bot core engine (`src/bot.py`) against its
natural-language specification. The Python functions are shallowly embedded
as pure Lean functions: the module-level mutable cache becomes explicit
state passing, Python floats for rates and timestamps are modelled exactly
as rationals / integers (the concrete values in the claims are exact in
binary floating point as well), and network fetches become an explicit
`Option` argument carrying the upstream response (`some items` for a
successful fetch, `none` for a failed one).
-/

namespace OKXBot

/-- `PAGE_SIZE = 10` (bot.py line 57). -/
def PAGE_SIZE : Nat := 10

/-- `CACHE_TTL = 30` seconds (bot.py line 63). -/
def CACHE_TTL : Int := 30

/-- One record of the market-lending-info list, with the fields the core
engine reads: `currencyName` (may be absent), `preRate` (decimal fraction,
modelled as an exact rational), and `dateHour` (millisecond timestamp, may
be absent). -/
structure Asset where
  currencyName : Option String
  preRate : ℚ
  dateHour : Option Nat
deriving DecidableEq, Repr

/-- The module-level cache `_cache["assets"]` (bot.py lines 60-62):
a fetch timestamp `ts` (seconds) and the cached `data` list. -/
structure CacheState where
  ts : Int
  data : List Asset
deriving DecidableEq, Repr

/-- The initial cache `{"ts": 0, "data": []}` (bot.py line 61). -/
def initCache : CacheState := ⟨0, []⟩

/-- `fetch_assets` (bot.py lines 68-89), with the implicit state made
explicit. `upstream` is the result the network call would produce at this
moment: `some items` for a successful request, `none` for any exception.
Returns the payload handed to the caller, the cache state afterwards, and
whether an upstream fetch was performed. The Python freshness test is
`if not force and _cache["assets"]["data"] and (now - ts < CACHE_TTL)`
(an empty list is falsy, so an empty cached payload never satisfies it);
the failure branch returns `_cache["assets"]["data"] or []`. -/
def fetch_assets (force : Bool) (now : Int) (upstream : Option (List Asset))
    (st : CacheState) : List Asset × CacheState × Bool :=
  if ¬force ∧ st.data ≠ [] ∧ now - st.ts < CACHE_TTL then
    (st.data, st, false)
  else
    match upstream with
    | some items => (items, ⟨now, items⟩, true)
    | none => (if st.data = [] then [] else st.data, st, true)

/-- The pagination logic shared by `build_paginated_keyboard`
(bot.py lines 139-149) and `build_history_menu_keyboard` (lines 157-166),
with the fixed `PAGE_SIZE` generalized to a `size` parameter: the page's
slice `items[start:start+size]` with `start = page*size`, the Prev flag
`start > 0`, and the Next flag `start + size < len(items)`. The page index
is a natural number, so the Python slice is `drop start`, then `take size`. -/
def paginate (items : List String) (page size : Nat) :
    List String × Bool × Bool :=
  let start := page * size
  ((items.drop start).take size,
   decide (0 < start),
   decide (start + size < items.length))

/-- `build_paginated_keyboard`'s slice and flags at the bot's fixed
`PAGE_SIZE` (bot.py lines 139-149). -/
def build_paginated_keyboard (items : List String) (page : Nat) :
    List String × Bool × Bool :=
  paginate items page PAGE_SIZE

/-- One record of the market-lending-history list, with the fields
`history_item_detail` reads: `rate` (decimal fraction, already coerced by
`safe_float`, modelled exactly as a rational) and `dateHour` (millisecond
timestamp, may be absent). -/
structure HistEntry where
  rate : ℚ
  dateHour : Option Nat
deriving DecidableEq, Repr

/-- UTC calendar day of a millisecond timestamp, as days since the epoch:
`datetime.fromtimestamp(ms / 1000, tz=timezone.utc).date()` assigns two
nonnegative millisecond timestamps the same UTC date exactly when their
floor quotients by 86400000 agree. -/
def msDay (ms : Nat) : Nat := ms / 86400000

/-- The aggregation core of `history_item_detail` (bot.py lines 354-376),
with "today" passed in as the UTC day number `nowDay`. Returns `none` for
the early `"No history data"` exit when `entries` is empty. Otherwise the
code takes `last24 = entries[:24]`, walks it appending `rate * 100` to
`today_rates` whenever the entry's UTC date equals today (an entry without
a `dateHour` raises inside the `try` and is skipped by `except: pass`),
and reports `avg_today = sum(today_rates)/len(today_rates) if today_rates
else 0.0` together with the count of today's samples. -/
def history_item_detail (entries : List HistEntry) (nowDay : Nat) :
    Option (ℚ × Nat) :=
  if entries = [] then none
  else
    let last24 := entries.take 24
    let todayRates := last24.foldl (fun acc e =>
      match e.dateHour with
      | some ms => if msDay ms = nowDay then acc ++ [e.rate * 100] else acc
      | none => acc) []
    let avg : ℚ :=
      if todayRates = [] then 0 else todayRates.sum / (todayRates.length : ℚ)
    some (avg, todayRates.length)

/-- Refinement-comparison definition following the claim's words, NOT the
source: bucket EVERY sample of the full series by UTC date and average the
scaled rates of the samples whose date equals today; also report their
count. Used only to compare against what `history_item_detail` computes. -/
def claimFullSeriesAverage (entries : List HistEntry) (nowDay : Nat) :
    ℚ × Nat :=
  let todays := (entries.filter
      (fun e => e.dateHour.any (fun ms => msDay ms == nowDay))).map
      (fun e => e.rate * 100)
  ((if todays = [] then 0 else todays.sum / (todays.length : ℚ)),
   todays.length)

/-- Stable descending insertion for the `pairs.sort(key=lambda x: x[1],
reverse=True)` step: the new element is placed before the first element
whose rate is not larger, so elements with equal rates keep their original
relative order — the relative order Python's stable sort produces. -/
def insertRateDesc (p : String × ℚ × Option Nat) :
    List (String × ℚ × Option Nat) → List (String × ℚ × Option Nat)
  | [] => [p]
  | q :: t => if q.2.1 ≤ p.2.1 then p :: q :: t else q :: insertRateDesc p t

/-- Stable sort by descending rate; produces the same output as Python's
stable `list.sort(key=lambda x: x[1], reverse=True)` (stable sorting by a
key is unique, so any stable implementation agrees with Timsort). -/
def sortRateDesc :
    List (String × ℚ × Option Nat) → List (String × ℚ × Option Nat)
  | [] => []
  | p :: t => insertRateDesc p (sortRateDesc t)

/-- `str.upper()` on the ASCII ticker strings the feed delivers. -/
def pyUpper (s : String) : String := String.mk (s.toList.map Char.toUpper)

/-- The ordering step of `pairs_page_handler` (bot.py lines 233-243): build
`((a.get("currencyName") or "").upper(), preRate * 100, dateHour)` triples,
drop pairs with an empty name, and sort stably by rate descending. The
formatted display-time string is abstracted to the raw `dateHour` value it
is derived from; it plays no role in ordering. -/
def pairs_page_order (assets : List Asset) :
    List (String × ℚ × Option Nat) :=
  sortRateDesc ((assets.map (fun a =>
    (pyUpper (a.currencyName.getD ""), a.preRate * 100, a.dateHour))).filter
      (fun p => !(p.1 == "")))

/-- The page of lines `pairs_page_handler` renders (bot.py lines 248-250):
`pairs[start:start + PAGE_SIZE]` with `start = page * PAGE_SIZE`, for a
nonnegative resolved page index. -/
def pairs_page_chunk (assets : List Asset) (page : Nat) :
    List (String × ℚ × Option Nat) :=
  ((pairs_page_order assets).drop (page * PAGE_SIZE)).take PAGE_SIZE

/-- The page of lines `history_menu_page` renders (bot.py lines 335-337):
`records[start:start + PAGE_SIZE]` with `start = page * PAGE_SIZE`. -/
def history_menu_chunk (records : List (String × ℚ × Option Nat))
    (page : Nat) : List (String × ℚ × Option Nat) :=
  (records.drop (page * PAGE_SIZE)).take PAGE_SIZE

/-- Python `str.split(sep)` without maxsplit, on a character list: split at
every separator; `"".split(sep)` is `[""]` and a trailing separator yields
a trailing empty piece. -/
def splitAllCh (sep : Char) : List Char → List (List Char)
  | [] => [[]]
  | c :: t =>
    if c = sep then [] :: splitAllCh sep t
    else
      match splitAllCh sep t with
      | [] => [[c]]
      | h :: r => (c :: h) :: r

/-- Python `str.split(sep, maxsplit)`: split at the first `maxsplit`
separator occurrences only; the remainder, separators included, is the
last piece. -/
def splitMaxCh (sep : Char) : Nat → List Char → List (List Char)
  | _, [] => [[]]
  | 0, l => [l]
  | n + 1, c :: t =>
    if c = sep then [] :: splitMaxCh sep n t
    else
      match splitMaxCh sep (n + 1) t with
      | [] => [[c]]
      | h :: r => (c :: h) :: r

/-- `str.split("_", maxsplit)` on strings. -/
def pySplitMax (s : String) (sep : Char) (maxsplit : Nat) : List String :=
  (splitMaxCh sep maxsplit s.toList).map (fun l => String.mk l)

/-- `str.split("_")` on strings. -/
def pySplitAll (s : String) (sep : Char) : List String :=
  (splitAllCh sep s.toList).map (fun l => String.mk l)

/-- Python `s.startswith(p)`: the first `len(p)` characters of `s` equal
`p`. -/
def strStartsWith (p s : String) : Bool :=
  s.toList.take p.toList.length == p.toList

/-- The item button token built by `build_paginated_keyboard` (bot.py line
142): the f-string interpolation of prefix, the literal item verb, and the
ticker, joined by the underscore delimiter. -/
def buildItemToken (pfx t : String) : String := pfx ++ "_item_" ++ t

/-- Ticker extraction of `pairs_item_handler` (bot.py line 260):
`query.data.split("_", 2)[2].upper()`; `none` models the `except` branch
answering `"Invalid pair selection."` when the split has no third piece. -/
def pairs_item_ticker (data : String) : Option String :=
  match pySplitMax data '_' 2 with
  | _ :: _ :: t :: _ => some (pyUpper t)
  | _ => none

/-- The router's dispatch of pairs item tokens (bot.py lines 436-456): a
token matching `startswith("pairs_item_")` is handed to
`pairs_item_handler`, which extracts the ticker. -/
def route_pairs_item (data : String) : Option String :=
  if strStartsWith "pairs_item_" data then pairs_item_ticker data else none

/-- Digit run of a Python integer literal: ASCII digits with single
underscores allowed between digits (as Python `int` accepts); `none` on an
empty run, a leading or trailing underscore, two underscores in a row, or
any non-digit. `acc` is the value of the digits already consumed. Scope:
ASCII digits only, which covers every token the bot builds or receives. -/
def pyIntDigitsAux : Nat → List Char → Option Nat
  | acc, [] => some acc
  | acc, c :: t =>
    if c.isDigit then pyIntDigitsAux (acc * 10 + (c.toNat - 48)) t
    else if c = '_' then
      match t with
      | [] => none
      | d :: t2 =>
        if d.isDigit then pyIntDigitsAux (acc * 10 + (d.toNat - 48)) t2
        else none
    else none

/-- Nonempty digit run starting with a digit. -/
def pyIntDigits : List Char → Option Nat
  | [] => none
  | c :: t =>
    if c.isDigit then pyIntDigitsAux (c.toNat - 48) t else none

/-- Leading and trailing whitespace removal, as Python `int` applies to its
string argument. -/
def stripWs (l : List Char) : List Char :=
  ((l.dropWhile (fun c => c.isWhitespace)).reverse.dropWhile
    (fun c => c.isWhitespace)).reverse

/-- Python `int(s)`: optional whitespace, an optional ASCII sign, then a
digit run; `none` models the `ValueError` a malformed argument raises. -/
def pyInt (s : String) : Option Int :=
  match stripWs s.toList with
  | '-' :: t => (pyIntDigits t).map (fun n => -(n : Int))
  | '+' :: t => (pyIntDigits t).map (fun n => (n : Int))
  | t => (pyIntDigits t).map (fun n => (n : Int))

/-- The page-index recovery shared by `pairs_page_handler` (bot.py line
228) and `history_menu_page` (line 320): `int(query.data.split("_")[-1])`
inside a `try`, with `page = 0` on any exception. The split of a string is
never empty, so only the `int` conversion can fail. -/
def parse_page_index (data : String) : Int :=
  (pyInt ((pySplitAll data '_').getLastD "")).getD 0

/-- Conversation position of one chat session, per the handler wiring in
`main` (bot.py lines 506-530): `searchInput` is the ticker-search
conversation state `SEARCH_INPUT`, where the next text message goes to
`search_input_handler`; `pairsFilterInput` is the pairs-filter conversation
state `PAIRS_FILTER_INPUT`, where it goes to `pairs_search_input`; `idle`
is stateless dispatch, where a text message falls through to the plain
`MessageHandler` registered last (line 530), which runs
`search_input_handler` as a stateless quick ticker lookup. -/
inductive ConvState
  | idle
  | searchInput
  | pairsFilterInput
deriving DecidableEq, Repr

/-- Per-session state: the conversation position plus the two
`context.user_data` flags `awaiting_search` and `awaiting_pairs_search`. -/
structure Session where
  conv : ConvState
  awaitingSearch : Bool
  awaitingPairsSearch : Bool
deriving DecidableEq, Repr

/-- How an incoming free-text message was consumed: as the answer to a
pending two-step prompt, or by the stateless fallback handler. -/
inductive TextRole
  | promptAnswer
  | stateless
deriving DecidableEq, Repr

/-- `search_prompt_cb` (bot.py lines 186-192): sets
`user_data["awaiting_search"] = True` and returns `SEARCH_INPUT`. -/
def search_prompt_cb (s : Session) : Session :=
  { s with conv := .searchInput, awaitingSearch := true }

/-- `pairs_search_prompt` (bot.py lines 397-402): sets
`user_data["awaiting_pairs_search"] = True` and returns
`PAIRS_FILTER_INPUT`. -/
def pairs_search_prompt (s : Session) : Session :=
  { s with conv := .pairsFilterInput, awaitingPairsSearch := true }

/-- Session effect of `search_input_handler` (bot.py lines 194-220):
`user_data["awaiting_search"] = False` unconditionally — before the ticker
lookup, hence also when the ticker is not found — and both exit paths
return `ConversationHandler.END`. `found` records whether
`find_asset_by_ticker` succeeded; it affects only the reply text, never
the session transition. -/
def search_input_handler (_found : Bool) (s : Session) : Session :=
  { s with conv := .idle, awaitingSearch := false }

/-- Session effect of `pairs_search_input` (bot.py lines 404-427):
`user_data["awaiting_pairs_search"] = False` unconditionally, and both
exit paths return `ConversationHandler.END`. -/
def pairs_search_input (_matched : Bool) (s : Session) : Session :=
  { s with conv := .idle, awaitingPairsSearch := false }

/-- Routing of one free-text message per the handler registrations in
`main` (bot.py lines 525-530): a session inside a conversation state has
the message consumed by that conversation's input handler as a prompt
answer; an idle session's message falls through to the stateless
quick-lookup `MessageHandler`, which runs `search_input_handler` outside
any conversation. -/
def handle_text (found : Bool) (s : Session) : Session × TextRole :=
  match s.conv with
  | .searchInput => (search_input_handler found s, .promptAnswer)
  | .pairsFilterInput => (pairs_search_input found s, .promptAnswer)
  | .idle => (search_input_handler found s, .stateless)

/-- A concrete instrument record used by witnesses. -/
def sampleAsset : Asset := ⟨some "USDT", 3, some 0⟩

/-! ## Helper lemmas -/

/-- Whatever branch `fetch_assets` takes, the payload it returns is the
`data` field of the cache state it leaves behind. -/
theorem fetch_assets_payload_eq_data (force : Bool) (now : Int)
    (r : Option (List Asset)) (st : CacheState) :
    (fetch_assets force now r st).1 = (fetch_assets force now r st).2.1.data := by
  unfold fetch_assets
  split
  · rfl
  · cases r with
    | some items => rfl
    | none => by_cases hd : st.data = [] <;> simp [hd]

/-- The cache-hit branch of `fetch_assets`: a nonempty payload younger
than the TTL is served back untouched, with no fetch. -/
theorem fetch_assets_fresh_hit (now : Int) (r : Option (List Asset))
    (st : CacheState) (h1 : st.data ≠ []) (h2 : now - st.ts < CACHE_TTL) :
    fetch_assets false now r st = (st.data, st, false) := by
  unfold fetch_assets
  rw [if_pos]
  exact ⟨by simp, h1, h2⟩

/-- The `today_rates` accumulation loop of `history_item_detail` equals a
filter of the walked entries by today's UTC date, followed by scaling. -/
theorem history_fold_eq_filter (d : Nat) (l : List HistEntry) (acc : List ℚ) :
    l.foldl (fun acc e =>
      match e.dateHour with
      | some ms => if msDay ms = d then acc ++ [e.rate * 100] else acc
      | none => acc) acc
    = acc ++ (l.filter (fun e => e.dateHour.any (fun ms => msDay ms == d))).map
        (fun e => e.rate * 100) := by
  induction l generalizing acc with
  | nil => simp
  | cons e t ih =>
    cases he : e.dateHour with
    | none => simp [he, ih]
    | some ms =>
      by_cases hd : msDay ms = d
      · simp [he, hd, ih]
      · simp [he, hd, ih]

/-- Membership in an insertion result. -/
theorem mem_insertRateDesc {x p : String × ℚ × Option Nat}
    {l : List (String × ℚ × Option Nat)} (h : x ∈ insertRateDesc p l) :
    x = p ∨ x ∈ l := by
  induction l with
  | nil => simpa [insertRateDesc] using h
  | cons q t ih =>
    by_cases hle : q.2.1 ≤ p.2.1
    · simp only [insertRateDesc, if_pos hle] at h
      rcases List.mem_cons.mp h with h1 | h1
      · exact Or.inl h1
      · exact Or.inr h1
    · simp only [insertRateDesc, if_neg hle] at h
      rcases List.mem_cons.mp h with h1 | h1
      · exact Or.inr (by simp [h1])
      · rcases ih h1 with h2 | h2
        · exact Or.inl h2
        · exact Or.inr (List.mem_cons_of_mem _ h2)

/-- Insertion preserves the sorted-by-descending-rate invariant. -/
theorem pairwise_insertRateDesc {p : String × ℚ × Option Nat}
    {l : List (String × ℚ × Option Nat)}
    (h : l.Pairwise (fun a b => b.2.1 ≤ a.2.1)) :
    (insertRateDesc p l).Pairwise (fun a b => b.2.1 ≤ a.2.1) := by
  induction l with
  | nil => simp [insertRateDesc]
  | cons q t ih =>
    rcases List.pairwise_cons.mp h with ⟨hq, ht⟩
    unfold insertRateDesc
    split
    · rename_i hle
      refine List.pairwise_cons.mpr ⟨?_, h⟩
      intro b hb
      rcases List.mem_cons.mp hb with hb | hb
      · exact hb ▸ hle
      · exact le_trans (hq b hb) hle
    · rename_i hgt
      push_neg at hgt
      refine List.pairwise_cons.mpr ⟨?_, ih ht⟩
      intro b hb
      rcases mem_insertRateDesc hb with hb | hb
      · exact hb ▸ le_of_lt hgt
      · exact hq b hb


/-- The sorted output of `sortRateDesc`. -/
theorem pairwise_sortRateDesc (l : List (String × ℚ × Option Nat)) :
    (sortRateDesc l).Pairwise (fun a b => b.2.1 ≤ a.2.1) := by
  induction l with
  | nil => simp [sortRateDesc]
  | cons p t ih => exact pairwise_insertRateDesc ih

/-- Inserting an element places it in front of every element of equal
rate, so the filter at the inserted element's rate gains it at the head
and every other rate class is untouched. -/
theorem filter_insertRateDesc (r : ℚ) (p : String × ℚ × Option Nat)
    (l : List (String × ℚ × Option Nat)) :
    (insertRateDesc p l).filter (fun x => x.2.1 == r)
    = if p.2.1 = r then p :: l.filter (fun x => x.2.1 == r)
      else l.filter (fun x => x.2.1 == r) := by
  induction l with
  | nil =>
    by_cases hp : p.2.1 = r <;> simp [insertRateDesc, List.filter_cons, hp]
  | cons q t ih =>
    unfold insertRateDesc
    split
    · rename_i hle
      by_cases hp : p.2.1 = r <;> simp [List.filter_cons, hp]
    · rename_i hgt
      push_neg at hgt
      by_cases hp : p.2.1 = r
      · have hq : ¬(q.2.1 = r) := by
          rw [← hp]
          exact ne_of_gt hgt
        simp [List.filter_cons, hp, hq, ih]
      · by_cases hq : q.2.1 = r <;> simp [List.filter_cons, hp, hq, ih]

/-- Stability of `sortRateDesc`: each rate class of the output is exactly
the rate class of the input, in the input's order. -/
theorem filter_sortRateDesc (r : ℚ) (l : List (String × ℚ × Option Nat)) :
    (sortRateDesc l).filter (fun x => x.2.1 == r)
    = l.filter (fun x => x.2.1 == r) := by
  induction l with
  | nil => rfl
  | cons p t ih =>
    unfold sortRateDesc
    rw [filter_insertRateDesc]
    by_cases hp : p.2.1 = r <;> simp [List.filter_cons, hp, ih]

/-- `splitMaxCh` with an exhausted budget returns the whole remainder. -/
theorem splitMaxCh_zero (sep : Char) (l : List Char) :
    splitMaxCh sep 0 l = [l] := by
  cases l <;> rfl

/-- Splitting a string that starts with a separator-free run followed by
a separator peels the run off as the first piece. -/
theorem splitMaxCh_append (sep : Char) (pre : List Char) (h : sep ∉ pre)
    (n : Nat) (rest : List Char) :
    splitMaxCh sep (n + 1) (pre ++ sep :: rest)
      = pre :: splitMaxCh sep n rest := by
  induction pre with
  | nil => simp [splitMaxCh]
  | cons c t ih =>
    have hc : ¬(c = sep) := by
      intro hcs
      exact h (by simp [hcs])
    have ht : sep ∉ t := fun hm => h (List.mem_cons_of_mem _ hm)
    have hrec := ih ht
    rw [List.cons_append]
    simp only [splitMaxCh, if_neg hc]
    rw [hrec]

/-! ## Claim theorems -/

/-- C2, counterexample: the claim says an out-of-range page index yields
an empty slice with BOTH flags false, so page 3 of [A,B,C,D,E] at page
size 2 would be ([], false, false); but the code's Prev flag is
`start > 0`, which holds at page 3, so the pager actually yields
([], true, false). -/
theorem paginate_out_of_range_counterexample :
    paginate ["A", "B", "C", "D", "E"] 3 2 = ([], true, false) ∧
    paginate ["A", "B", "C", "D", "E"] 3 2 ≠ ([], false, false) := by
  decide

/-- C2, amended: for every item list, zero-based page index and positive
page size, the pager returns the slice items[start : start + size] with
hasPrev = (start > 0), equivalent to pageIndex > 0 — also on out-of-range
pages — and hasNext = ((pageIndex + 1) * size < len(items)); an
out-of-range page index yields an empty slice (hasNext is then false by
the formula, hasPrev stays true for a positive index), never an
exception. -/
theorem paginate_slice_and_flags (items : List String) (page size : Nat)
    (h : 0 < size) :
    paginate items page size =
      ((items.drop (page * size)).take size,
       decide (0 < page),
       decide ((page + 1) * size < items.length)) ∧
    (items.length ≤ page * size → (paginate items page size).1 = []) := by
  have h1 : (0 < page * size) ↔ (0 < page) := by
    constructor
    · intro hp
      rcases Nat.eq_zero_or_pos page with h0 | h0
      · rw [h0] at hp
        simp at hp
      · exact h0
    · intro hp
      exact Nat.mul_pos hp h
  have h2 : page * size + size = (page + 1) * size := by ring
  constructor
  · simp only [paginate, Prod.mk.injEq]
    refine ⟨trivial, ?_, ?_⟩
    · rw [decide_eq_decide]
      exact h1
    · rw [h2]
  · intro hl
    show (items.drop (page * size)).take size = []
    rw [List.drop_eq_nil_of_le hl, List.take_nil]

/-- C2 witness: the amended statement applied at items = [A,B,C,D,E],
pageIndex 2, pageSize 2, fully evaluated: ([E], hasPrev, no hasNext). -/
theorem paginate_slice_and_flags_witness :
    paginate ["A", "B", "C", "D", "E"] 2 2 = (["E"], true, false) := by
  have h := (paginate_slice_and_flags ["A", "B", "C", "D", "E"] 2 2
    (by decide)).1
  rw [h]
  decide

/-- C4, counterexample: two `get(false)` calls one second apart, well
within TTL = 30. The first is a successful fetch that stores the empty
list; since an empty cached payload never passes the falsy freshness
test, the second call performs another upstream fetch (third component
true) and returns a different payload — both the "identical payload" and
the "no additional upstream fetch" parts of the claim fail. -/
theorem cache_within_ttl_counterexample :
    fetch_assets false 0 (some []) initCache = ([], ⟨0, []⟩, true) ∧
    fetch_assets false 1 (some [sampleAsset]) ⟨0, []⟩
      = ([sampleAsset], ⟨1, [sampleAsset]⟩, true) := by
  decide

/-- C4, amended: if after the first call the cache holds a NONEMPTY
payload whose fetch timestamp is within TTL of the second call, then the
second `get(false)` returns exactly the payload the first call returned,
performs no upstream fetch, and leaves the cache untouched. -/
theorem cache_fresh_second_call (f1 : Bool) (n1 n2 : Int)
    (r1 r2 : Option (List Asset)) (st : CacheState)
    (h1 : (fetch_assets f1 n1 r1 st).2.1.data ≠ [])
    (h2 : n2 - (fetch_assets f1 n1 r1 st).2.1.ts < CACHE_TTL) :
    fetch_assets false n2 r2 (fetch_assets f1 n1 r1 st).2.1
      = ((fetch_assets f1 n1 r1 st).1,
         (fetch_assets f1 n1 r1 st).2.1, false) := by
  rw [fetch_assets_fresh_hit n2 r2 _ h1 h2, fetch_assets_payload_eq_data]

/-- C4 witness: after a forced successful fetch at t = 0 storing one
instrument, a `get(false)` at t = 10 (within TTL) returns the same
payload with no fetch. -/
theorem cache_fresh_second_call_witness :
    fetch_assets false 10 none
        (fetch_assets true 0 (some [sampleAsset]) initCache).2.1
      = ((fetch_assets true 0 (some [sampleAsset]) initCache).1,
         (fetch_assets true 0 (some [sampleAsset]) initCache).2.1, false) :=
  cache_fresh_second_call true 0 10 (some [sampleAsset]) none initCache
    (by decide) (by decide)

/-- C5, counterexample: a successful upstream fetch can legitimately
store the EMPTY list (the feed's nested "list" field was empty); a later
failed fetch then returns the empty sequence even though a fetch has
succeeded before — refuting "only when no fetch has ever succeeded does
it return an empty sequence". -/
theorem stale_fallback_counterexample :
    fetch_assets true 0 (some []) initCache = ([], ⟨0, []⟩, true) ∧
    fetch_assets false 40 none ⟨0, []⟩ = ([], ⟨0, []⟩, true) := by
  decide

/-- C5, amended: on a failed upstream fetch the call returns exactly the
previously stored payload — stale data whenever one exists — and leaves
the cache unchanged; the returned sequence is empty precisely when the
stored payload is empty, which can also happen after a successful fetch
that stored an empty list. -/
theorem fetch_failure_returns_stored (force : Bool) (now : Int)
    (st : CacheState) :
    (fetch_assets force now none st).1 = st.data ∧
    (fetch_assets force now none st).2.1 = st := by
  unfold fetch_assets
  split
  · exact ⟨rfl, rfl⟩
  · by_cases hd : st.data = [] <;> simp [hd]

/-- C8: for both two-step prompts — the ticker search
(`search_prompt_cb` sets `awaiting_search`) and the pairs filter
(`pairs_search_prompt` sets `awaiting_pairs_search`) — the next
free-text message is consumed as the prompt answer and clears the
pending flag unconditionally; the lookup outcome `found1` (e.g. a ticker
or substring that is not found) is irrelevant, the session returns to
stateless dispatch, and a second free-text message is then handled as
stateless, non-prompt input. -/
theorem prompt_flag_consumed_once (s : Session) (found1 found2 : Bool) :
    ((handle_text found1 (search_prompt_cb s)).2 = TextRole.promptAnswer ∧
     (handle_text found1 (search_prompt_cb s)).1.awaitingSearch = false ∧
     (handle_text found1 (search_prompt_cb s)).1.conv = ConvState.idle ∧
     (handle_text found2 (handle_text found1 (search_prompt_cb s)).1).2
       = TextRole.stateless) ∧
    ((handle_text found1 (pairs_search_prompt s)).2
       = TextRole.promptAnswer ∧
     (handle_text found1 (pairs_search_prompt s)).1.awaitingPairsSearch
       = false ∧
     (handle_text found1 (pairs_search_prompt s)).1.conv = ConvState.idle ∧
     (handle_text found2 (handle_text found1 (pairs_search_prompt s)).1).2
       = TextRole.stateless) :=
  ⟨⟨rfl, rfl, rfl, rfl⟩, ⟨rfl, rfl, rfl, rfl⟩⟩

/-- C9: with an empty cached payload the freshness test is falsy
regardless of the entry's age, so `get(false)` always performs an
upstream fetch, and on a successful fetch returns the fresh items — an
empty payload is never served from cache. -/
theorem empty_cache_never_served (now : Int) (r : Option (List Asset))
    (st : CacheState) (h : st.data = []) :
    (fetch_assets false now r st).2.2 = true ∧
    ∀ items, r = some items → (fetch_assets false now r st).1 = items := by
  unfold fetch_assets
  rw [if_neg (by simp [h])]
  cases r with
  | some items => exact ⟨rfl, fun i hi => by cases hi; rfl⟩
  | none => exact ⟨rfl, fun i hi => by cases hi⟩

/-- C9 witness: an empty payload cached at t = 5 is not served at t = 6
(well within TTL): the call fetches upstream again. -/
theorem empty_cache_never_served_witness :
    (fetch_assets false 6 (some [sampleAsset]) ⟨5, []⟩).2.2 = true ∧
    (fetch_assets false 6 (some [sampleAsset]) ⟨5, []⟩).1 = [sampleAsset] := by
  have h := empty_cache_never_served 6 (some [sampleAsset]) ⟨5, []⟩ rfl
  exact ⟨h.1, h.2 [sampleAsset] rfl⟩

/-- C10: when the trailing segment after the last underscore is not a
parseable integer, `int(...)` raises, the `except` branch resolves the
page index to 0, and both page handlers render the first page of their
listing rather than erroring. -/
theorem bad_page_token_first_page (data : String) (assets : List Asset)
    (records : List (String × ℚ × Option Nat))
    (h : pyInt ((pySplitAll data '_').getLastD "") = none) :
    parse_page_index data = 0 ∧
    pairs_page_chunk assets (parse_page_index data).toNat
      = (pairs_page_order assets).take PAGE_SIZE ∧
    history_menu_chunk records (parse_page_index data).toNat
      = records.take PAGE_SIZE := by
  have h0 : parse_page_index data = 0 := by
    simp only [parse_page_index, h, Option.getD_none]
  refine ⟨h0, ?_, ?_⟩
  · rw [h0]
    simp [pairs_page_chunk]
  · rw [h0]
    simp [history_menu_chunk]

/-- C10 witness: the token "pairs_page_abc" has the non-numeric trailing
segment "abc" and resolves to page 0. -/
theorem bad_page_token_first_page_witness :
    parse_page_index "pairs_page_abc" = 0 :=
  (bad_page_token_first_page "pairs_page_abc" [] [] (by decide)).1

/-- C1, counterexample: the code buckets only the newest 24 entries, not
the full series. With 25 samples all timestamped today (UTC day 1) — 24
at rate 0.01 and the oldest at rate 0.25 — the handler reports an
average of 1 (1.00%) over 24 samples, while bucketing the full series as
the claim states would give 49/25 (1.96%) over 25 samples. -/
theorem history_window_counterexample :
    history_item_detail
        (List.replicate 24 ⟨1/100, some 86400000⟩
          ++ [⟨25/100, some 86400000⟩]) 1
      = some (1, 24) ∧
    claimFullSeriesAverage
        (List.replicate 24 ⟨1/100, some 86400000⟩
          ++ [⟨25/100, some 86400000⟩]) 1
      = (49/25, 25) ∧
    (1 : ℚ) ≠ 49/25 := by
  refine ⟨?_, ?_, by norm_num⟩
  · norm_num [history_item_detail, msDay, List.replicate]
    exact ⟨by simp, by simp⟩
  · norm_num [claimFullSeriesAverage, msDay, List.replicate, List.filter]
    simp

/-- C1, amended: the per-day average for "today" is computed by bucketing
the samples of the capped window `entries[:24]` (not the full series) by
UTC calendar date and averaging the scaled rates of those whose date
equals today's; the claim's 3-today-plus-1-yesterday example still
reports 0.02 (2.00% after scaling) with a today-count of 3, since those
4 samples all lie inside the window. -/
theorem history_average_first24 (entries : List HistEntry) (nowDay : Nat)
    (h : entries ≠ []) :
    history_item_detail entries nowDay =
      some (let todays := ((entries.take 24).filter
                (fun e => e.dateHour.any (fun ms => msDay ms == nowDay))).map
                (fun e => e.rate * 100)
            ((if todays = [] then 0 else todays.sum / (todays.length : ℚ)),
             todays.length)) := by
  simp only [history_item_detail, if_neg h, history_fold_eq_filter,
    List.nil_append]

/-- C1 witness: 3 samples timestamped today (UTC day 1) with rates 0.01,
0.02, 0.03 plus 1 sample timestamped yesterday (UTC day 0) with rate
0.5: the summary reports average 2 (2.00%) with a today-count of 3. -/
theorem history_average_first24_witness :
    history_item_detail
        [⟨1/100, some 86400000⟩, ⟨2/100, some 86400000⟩,
         ⟨3/100, some 86400000⟩, ⟨1/2, some 0⟩] 1 = some (2, 3) := by
  rw [history_average_first24 _ 1 (by simp)]
  norm_num [msDay]
  simp

/-- C3, counterexample: a nonempty series with no samples today — one
sample yesterday at rate 0.5 — is reported with the plain number 0 as
its average (count 0), exactly the value reported for a genuine 0.00%
today average (one sample today at rate 0, count 1): absence of data and
a zero rate are conflated, with no sentinel. -/
theorem history_zero_sentinel_counterexample :
    history_item_detail [⟨1/2, some 0⟩] 1 = some (0, 0) ∧
    history_item_detail [⟨0, some 86400000⟩] 1 = some (0, 1) := by
  constructor
  · norm_num [history_item_detail, msDay]
  · norm_num [history_item_detail, msDay]

/-- C3, amended: only the entirely empty series yields the distinct "No
history data" result; a nonempty series whose today-bucket is empty
reports the number zero as its average — indistinguishable from a
genuine 0.00% average — rather than a sentinel. -/
theorem history_empty_vs_zero (entries : List HistEntry) (nowDay : Nat) :
    history_item_detail [] nowDay = none ∧
    (entries ≠ [] →
      (history_item_detail entries nowDay).map Prod.snd = some 0 →
      (history_item_detail entries nowDay).map Prod.fst = some 0) := by
  refine ⟨rfl, ?_⟩
  intro h h0
  simp only [history_item_detail, if_neg h, Option.map_some',
    Option.some.injEq] at h0 ⊢
  have hnil := List.length_eq_zero.mp h0
  rw [if_pos hnil]

/-- C3 witness: the amended statement applied to the one-sample-yesterday
series: the reported average is the number zero. -/
theorem history_empty_vs_zero_witness :
    (history_item_detail [(⟨1/2, some 0⟩ : HistEntry)] 1).map Prod.fst
      = some 0 := by
  refine (history_empty_vs_zero [⟨1/2, some 0⟩] 1).2 (by simp) ?_
  norm_num [history_item_detail, msDay]

/-- C6: building the item action token for an uppercase symbol — even one
containing the underscore delimiter, such as "BTC_USD" — and parsing it
back through the router yields the item route and the original symbol
unchanged, because `pairs_item_handler` splits on the first two delimiter
occurrences only (`split("_", 2)`) and passes the remainder through
`upper()`, which fixes an already-uppercase symbol. -/
theorem item_token_roundtrip (sym : String) (hs : pyUpper sym = sym) :
    route_pairs_item (buildItemToken "pairs" sym) = some sym := by
  have hdata : (buildItemToken "pairs" sym).toList
      = "pairs".toList ++ '_' :: ("item".toList ++ '_' :: sym.toList) := rfl
  have hsplit : splitMaxCh '_' 2 (buildItemToken "pairs" sym).toList
      = ["pairs".toList, "item".toList, sym.toList] := by
    rw [hdata, splitMaxCh_append '_' "pairs".toList (by decide) 1,
        splitMaxCh_append '_' "item".toList (by decide) 0, splitMaxCh_zero]
  have hstart : strStartsWith "pairs_item_" (buildItemToken "pairs" sym)
      = true := rfl
  simp only [route_pairs_item, hstart, if_true, pairs_item_ticker,
    pySplitMax, hsplit, List.map_cons]
  show some (pyUpper (String.mk sym.toList)) = some sym
  rw [show String.mk sym.toList = sym from rfl, hs]

/-- C6 witness: round trip at the claim's own example, the
delimiter-containing symbol "BTC_USD". -/
theorem item_token_roundtrip_witness :
    route_pairs_item (buildItemToken "pairs" "BTC_USD") = some "BTC_USD" :=
  item_token_roundtrip "BTC_USD" (by decide)

/-- C7, counterexample: two instruments with EQUAL current rate, fetched
in the order B then A: Python's stable sort keeps B before A, so ties
are broken by fetched order, not by symbol ascending as the claim
states. -/
theorem pairs_order_tie_counterexample :
    (pairs_page_order
        [⟨some "B", 1/100, none⟩, ⟨some "A", 1/100, none⟩]).map
        (fun p => p.1) = ["B", "A"] ∧
    (["B", "A"] : List String) ≠ ["A", "B"] := by
  constructor
  · norm_num [pairs_page_order, sortRateDesc, insertRateDesc, pyUpper]
    decide
  · decide

/-- C7, amended: the ordering applied before paging is deterministic (a
pure function of the fetched list) and stable: the output is sorted by
descending scaled rate, and within each equal-rate class the instruments
appear exactly in the order of the fetched list — ties are NOT re-broken
by symbol ascending. -/
theorem pairs_order_sorted_stable (assets : List Asset) (r : ℚ) :
    (pairs_page_order assets).Pairwise (fun a b => b.2.1 ≤ a.2.1) ∧
    (pairs_page_order assets).filter (fun x => x.2.1 == r)
      = ((assets.map (fun a =>
            (pyUpper (a.currencyName.getD ""), a.preRate * 100,
             a.dateHour))).filter
          (fun p => !(p.1 == ""))).filter (fun x => x.2.1 == r) :=
  ⟨pairwise_sortRateDesc _, filter_sortRateDesc r _⟩

end OKXBot
